import Mathlib

/-!
Verification of the statement-dump segmentation engine (src/lexer.py, src/parser.py).

The lexer (`Lexer` in src/lexer.py) is a ply.lex scanner: at each position the
token rules are tried in their definition order (STARTPAGE, LINENO, STARTADDRESS,
ENDADDRESS, WHITESPACE, NUMBER, TEXT); on no match `t_error` reports through the
injected error callback and skips one character.  All seven regexes consist of
maximal runs of pairwise-disjoint character classes and literal fragments, so
Python's greedy matching coincides with sequential maximal munch, which is how
they are embedded here.

The parser (`Parser` in src/parser.py) is a ply.yacc LALR parser whose document
state lives in the fields `addresses`, `accounts`, `statements`, `totalPages`.
Its semantic actions `p_address`, `p_addrpage`, `p_page` are embedded directly.
A completed parse fires, for each page of the input, one `pagelist` reduction
(`addrpage : STARTPAGE lines address lines` or `page : STARTPAGE lines`), each
consuming exactly one STARTPAGE terminal; inside an `addrpage` the inner
`address` reduction fires first.  `runReds` threads the document state through
such a reduction sequence.  Python exceptions escaping the actions (IndexError
from `addresses[-1]` on an empty history, KeyError from a missing `accounts`
key) are modelled with `Except`.

Python keys `accounts` by `str(self.statements)`; decimal rendering is injective
on naturals, so the map is keyed here by the number itself, while `Nat.repr`
is kept wherever the decimal string is stored as a value (the page-number
lists, which Python fills with `str(self.totalPages)`).
-/

/-- Python 2 `\s` / `str.isspace` character class: space, tab, newline,
carriage return, vertical tab, form feed. -/
def isSpaceChar (c : Char) : Bool :=
  c = ' ' || c = '\t' || c = '\n' || c = '\r' || c = '\x0b' || c = '\x0c'

/-- Python `\d`: ASCII decimal digits. -/
def isDigitChar (c : Char) : Bool :=
  '0' ≤ c && c ≤ '9'

/-- Python `\w` (no locale/unicode flags): letters, digits, underscore. -/
def isWordChar (c : Char) : Bool :=
  isDigitChar c || ('a' ≤ c && c ≤ 'z') || ('A' ≤ c && c ≤ 'Z') || c = '_'

/-- `string.printable`: the ASCII graphic characters and space (0x20–0x7e)
plus `\t\n\r\x0b\x0c`. -/
def isPrintableChar (c : Char) : Bool :=
  (0x20 ≤ c.toNat && c.toNat ≤ 0x7e) || isSpaceChar c

/-- Character class of the TEXT rule:
`string.printable.translate(None, '0123456789 \t\n')`, i.e. printable
characters minus digits, space, tab and newline (`\r\x0b\x0c` remain). -/
def isTextChar (c : Char) : Bool :=
  isPrintableChar c && !isDigitChar c && c ≠ ' ' && c ≠ '\t' && c ≠ '\n'

/-- Length of the maximal run of characters satisfying `p` at the head. -/
def takeRun (p : Char → Bool) : List Char → Nat
  | [] => 0
  | c :: cs => if p c then takeRun p cs + 1 else 0

/-- `X+` for a character class: match length of the (nonempty) maximal run. -/
def matchRun (p : Char → Bool) (cs : List Char) : Option Nat :=
  match takeRun p cs with
  | 0 => none
  | n + 1 => some (n + 1)

/-- Anchored literal match. -/
def matchLit (lit : List Char) (cs : List Char) : Option Nat :=
  if lit.isPrefixOf cs then some lit.length else none

/-- Sequential composition of anchored matchers. -/
def matchSeq (m1 m2 : List Char → Option Nat) (cs : List Char) : Option Nat :=
  match m1 cs with
  | none => none
  | some n1 =>
    match m2 (cs.drop n1) with
    | none => none
    | some n2 => some (n1 + n2)

/-- `STARTPAGE = \s*000000001\n`. -/
def matchSTARTPAGE (cs : List Char) : Option Nat :=
  let w := takeRun isSpaceChar cs
  match matchLit "000000001\n".data (cs.drop w) with
  | none => none
  | some n => some (w + n)

/-- `LINENO = \s*\d+\n`. -/
def matchLINENO (cs : List Char) : Option Nat :=
  let w := takeRun isSpaceChar cs
  match matchSeq (matchRun isDigitChar) (matchLit ['\n']) (cs.drop w) with
  | none => none
  | some n => some (w + n)

/-- `STARTADDRESS = \w+[ ]+\d+,[ ]+\d+[ ]+to[ ]+\w+[ ]+\d+,[ ]+\d+`. -/
def matchSTARTADDRESS : List Char → Option Nat :=
  matchSeq (matchRun isWordChar) (matchSeq (matchRun (· = ' '))
    (matchSeq (matchRun isDigitChar) (matchSeq (matchLit [','])
      (matchSeq (matchRun (· = ' ')) (matchSeq (matchRun isDigitChar)
        (matchSeq (matchRun (· = ' ')) (matchSeq (matchLit ['t', 'o'])
          (matchSeq (matchRun (· = ' ')) (matchSeq (matchRun isWordChar)
            (matchSeq (matchRun (· = ' ')) (matchSeq (matchRun isDigitChar)
              (matchSeq (matchLit [',']) (matchSeq (matchRun (· = ' '))
                (matchRun isDigitChar))))))))))))))

/-- `ENDADDRESS = \*+[ ]Summary[ ]of[ ]Account[ ]Activity[ ]\*+`. -/
def matchENDADDRESS : List Char → Option Nat :=
  matchSeq (matchRun (· = '*'))
    (matchSeq (matchLit " Summary of Account Activity ".data)
      (matchRun (· = '*')))

/-- Token kinds of the lexer. -/
inductive TokKind where
  | STARTPAGE
  | LINENO
  | STARTADDRESS
  | ENDADDRESS
  | WHITESPACE
  | NUMBER
  | TEXT
deriving DecidableEq, Repr

/-- The ply master match: the rules tried in the token functions' definition
order (src/lexer.py lines 121–148), first hit wins. -/
def masterMatch (cs : List Char) : Option (TokKind × Nat) :=
  match matchSTARTPAGE cs with
  | some n => some (TokKind.STARTPAGE, n)
  | none =>
  match matchLINENO cs with
  | some n => some (TokKind.LINENO, n)
  | none =>
  match matchSTARTADDRESS cs with
  | some n => some (TokKind.STARTADDRESS, n)
  | none =>
  match matchENDADDRESS cs with
  | some n => some (TokKind.ENDADDRESS, n)
  | none =>
  match matchRun isSpaceChar cs with
  | some n => some (TokKind.WHITESPACE, n)
  | none =>
  match matchRun isDigitChar cs with
  | some n => some (TokKind.NUMBER, n)
  | none =>
  match matchRun isTextChar cs with
  | some n => some (TokKind.TEXT, n)
  | none => none

/-- A produced token: kind, matched text, line number at match time
(ply sets `t.lineno` before the rule function runs), start offset. -/
structure Token where
  kind : TokKind
  value : List Char
  lineno : Nat
  lexpos : Nat
deriving DecidableEq, Repr

/-- A lexical error report: the arguments `Lexer._error` passes to the
injected error callback (message, line, column). -/
structure LexErr where
  msg : String
  line : Nat
  col : Nat
deriving DecidableEq, Repr

/-- The backward scan of `Lexer._find_tok_column` (src/lexer.py lines 84–89):
starting at `i = lexpos`, while `i > 0`, break when `lexdata[i]` is a newline,
else decrement.  Returns the final `i` (index 0 is never inspected). -/
def colScan (d : List Char) : Nat → Nat
  | 0 => 0
  | i + 1 => if d.getD (i + 1) ' ' = '\n' then i + 1 else colScan d i

/-- `Lexer._find_tok_column`: `(token.lexpos - i) + 1` for the scan result `i`. -/
def findTokColumn (d : List Char) (lexpos : Nat) : Nat :=
  lexpos - colScan d lexpos + 1

/-- The message of `t_error`: `'Illegal character %s' % repr(t.value[0])`,
with Python's `repr` of a one-character string modelled as simple quoting. -/
def illegalMsg (c : Char) : String :=
  "Illegal character " ++ String.mk ['\'', c, '\'']

/-- The ply scan loop over the remaining input `rest` (a suffix of the full
`lexdata` `d`, which the error path needs for the backward column scan).
On a match the token is emitted and `lexer.lineno` is advanced by the number
of newlines in the value when the rule is `t_LINENO` (and only then); on no
match `t_error` fires: one error report through the callback, `skip(1)`, and
the scan resumes — the loop always runs to the end of the input.
Every rule matches at least one character, so `n ≥ 1` in the match branch. -/
def lexLoop (d : List Char) (rest : List Char) (pos line : Nat) :
    List Token × List LexErr :=
  match rest with
  | [] => ([], [])
  | c :: cs =>
    match masterMatch (c :: cs) with
    | some (k, n) =>
      let v := (c :: cs).take n
      let line' := if k = TokKind.LINENO then line + v.countP (· = '\n') else line
      let r := lexLoop d (cs.drop (n - 1)) (pos + n) line'
      (⟨k, v, line, pos⟩ :: r.1, r.2)
    | none =>
      let r := lexLoop d cs (pos + 1) line
      (r.1, ⟨illegalMsg c, line, findTokColumn d pos⟩ :: r.2)
termination_by rest.length
decreasing_by
  · simp [List.length_drop]; omega
  · simp

/-- Tokenize a whole input: scan from offset 0 with `lineno = 1`
(`reset_lineno` runs at the start of every `parse` call). -/
def lexTokens (text : String) : List Token × List LexErr :=
  lexLoop text.data text.data 0 1

/-- One value of the `accounts` dict: the 5-element list
`[1, [str(totalPages)], addresses[-1], [], None]` of `p_addrpage`, i.e.
page count, page-number strings, address text, and the two reserved slots. -/
structure AccountEntry where
  pageCount : Nat
  pageNumbers : List String
  address : String
  reserved : List String
  reservedSlot : Option String
deriving DecidableEq, Repr

/-- The parser's accumulating document state (the fields set up in
`Parser.__init__`: `addresses`, `accounts`, `statements`, `totalPages`),
plus the list of page texts handed to `buildNewPage` in encounter order. -/
structure ParserState where
  addresses : List String
  accounts : List (Nat × AccountEntry)
  statements : Nat
  totalPages : Nat
  builtPages : List String
deriving DecidableEq, Repr

/-- The state right after `Parser.__init__`: empty history, empty dict,
zero counters. -/
def initState : ParserState := ⟨[], [], 0, 0, []⟩

/-- Python-dict lookup on the association-list model (first hit). -/
def dictGet : List (Nat × AccountEntry) → Nat → Option AccountEntry
  | [], _ => none
  | (k', v) :: rest, k => if k' = k then some v else dictGet rest k

/-- Python-dict store: overwrite the existing entry, else append. -/
def dictSet : List (Nat × AccountEntry) → Nat → AccountEntry →
    List (Nat × AccountEntry)
  | [], k, v => [(k, v)]
  | (k', v') :: rest, k, v =>
    if k' = k then (k, v) :: rest else (k', v') :: dictSet rest k v

/-- Python exceptions escaping a semantic action, and the ParseError raised
through `p_error`/`_parse_error`. -/
inductive PyErr where
  | indexError
  | keyError
  | parseError
deriving DecidableEq, Repr

/-- Substring test, the semantics of Python `s.find(sub) != -1`. -/
def containsSub : List Char → List Char → Bool
  | [], sub => sub.isEmpty
  | c :: rest, sub => sub.isPrefixOf (c :: rest) || containsSub rest sub

/-- The sentinel test of `p_addrpage`/`p_page`:
`self.addresses[-1].find('******************') != -1` — an occurrence of a
run of EIGHTEEN asterisks. -/
def containsSentinel (s : String) : Bool :=
  containsSub s.data "******************".data

/-- `p_address` (src/parser.py lines 185–188): append `p[2]` — only the inner
lines of the address block — to the address history, and return
`p[0] = p[1] + p[2] + p[3]`, the full reconstructed block. -/
def p_address (st : ParserState) (p1 p2 p3 : String) : ParserState × String :=
  ({ st with addresses := st.addresses ++ [p2] }, p1 ++ p2 ++ p3)

/-- `p_addrpage` (src/parser.py lines 161–172): if the last address entry has
no 18-asterisk run, bump both counters, build the page from
`p[2:] = [lines, address, lines]`, and insert a fresh statement record at key
`statements`; otherwise do nothing at all.  `addresses[-1]` on an empty
history raises IndexError. -/
def p_addrpage (st : ParserState) (lines1 addrText lines2 : String) :
    Except PyErr ParserState :=
  match st.addresses.getLast? with
  | none => Except.error PyErr.indexError
  | some last =>
    if containsSentinel last then Except.ok st
    else
      Except.ok { st with
        totalPages := st.totalPages + 1,
        statements := st.statements + 1,
        builtPages := st.builtPages ++ [lines1 ++ addrText ++ lines2],
        accounts := dictSet st.accounts (st.statements + 1)
          ⟨1, [Nat.repr (st.totalPages + 1)], last, [], none⟩ }

/-- `p_page` (src/parser.py lines 174–183): if the last address entry has no
18-asterisk run, bump `totalPages`, build the page from `p[2:] = [lines]`, and
extend the record at key `statements` (KeyError when absent); otherwise do
nothing at all.  `addresses[-1]` on an empty history raises IndexError. -/
def p_page (st : ParserState) (lines1 : String) : Except PyErr ParserState :=
  match st.addresses.getLast? with
  | none => Except.error PyErr.indexError
  | some last =>
    if containsSentinel last then Except.ok st
    else
      match dictGet st.accounts st.statements with
      | none => Except.error PyErr.keyError
      | some acct =>
        Except.ok { st with
          totalPages := st.totalPages + 1,
          builtPages := st.builtPages ++ [lines1],
          accounts := dictSet st.accounts st.statements
            ⟨acct.pageCount + 1,
             acct.pageNumbers ++ [Nat.repr (st.totalPages + 1)],
             acct.address, acct.reserved, acct.reservedSlot⟩ }

/-- One `pagelist` reduction, carrying the string values of its constituent
nonterminals: for `addrpage : STARTPAGE lines address lines` the leading
lines, the three parts of the address block (`beginaddress` value, inner
`lines` value, `stopaddress` value), and the trailing lines; for
`page : STARTPAGE lines` just the lines.  Each pagelist production consumes
exactly one STARTPAGE terminal. -/
inductive PageRed where
  | addrpage (lines1 beginA innerA endA lines2 : String)
  | page (lines1 : String)
deriving DecidableEq, Repr

/-- Fire the semantic actions of one pagelist reduction.  Inside an
`addrpage`, the inner `address` reduction fires first (LALR reduces
innermost-first), so `p_addrpage` sees the just-appended entry. -/
def applyRed (st : ParserState) : PageRed → Except PyErr ParserState
  | PageRed.addrpage lines1 beginA innerA endA lines2 =>
    let r := p_address st beginA innerA endA
    p_addrpage r.1 lines1 r.2 lines2
  | PageRed.page lines1 => p_page st lines1

/-- Thread the document state through a completed parse's sequence of
pagelist reductions; an escaping exception aborts the run. -/
def runReds : ParserState → List PageRed → Except PyErr ParserState
  | st, [] => Except.ok st
  | st, r :: rs =>
    match applyRed st r with
    | Except.error e => Except.error e
    | Except.ok st' => runReds st' rs

/-- Number of STARTPAGE tokens consumed by a completed parse: each pagelist
production (`addrpage` or `page`) begins with exactly one STARTPAGE terminal,
so it is the number of pagelist reductions. -/
def startpageCount (rs : List PageRed) : Nat := rs.length

/-- The pages the code actually counts: walking the reductions while tracking
the most recent address entry, a page contributes 1 exactly when its governing
entry (its own inner address text for an `addrpage`, the current last entry
for a `page`) has no 18-asterisk run. -/
def nonSentinelCount (last? : Option String) : List PageRed → Nat
  | [] => 0
  | r :: rs =>
    match r with
    | PageRed.addrpage _ _ innerA _ _ =>
      (if containsSentinel innerA then 0 else 1) + nonSentinelCount (some innerA) rs
    | PageRed.page _ =>
      match last? with
      | some a => (if containsSentinel a then 0 else 1) + nonSentinelCount (some a) rs
      | none => nonSentinelCount none rs

/-- Sum of the page counts of all statement records. -/
def sumPC (l : List (Nat × AccountEntry)) : Nat :=
  (l.map (fun p => p.2.pageCount)).sum

/-- Invariant for C5: statement keys lie in `1..statements`, and the page
counts sum to `totalPages`. -/
def GoodState (st : ParserState) : Prop :=
  (∀ p ∈ st.accounts, 1 ≤ p.1 ∧ p.1 ≤ st.statements) ∧
  sumPC st.accounts = st.totalPages

/-- Invariant for C6: every statement record's page count equals the length
of its page-number list. -/
def PCInv (st : ParserState) : Prop :=
  ∀ p ∈ st.accounts, p.2.pageCount = p.2.pageNumbers.length

/-- Python `str.isspace()`: nonempty and all whitespace. -/
def pyStrIsSpace (s : String) : Bool :=
  !s.data.isEmpty && s.data.all isSpaceChar

/-- A reconstructed grammar line: its string value (`p[0]` of `line`,
`beginaddress` or `stopaddress`, i.e. the concatenated token texts with the
LINENO stamp replaced by a newline) and whether it holds an address marker. -/
structure RawLine where
  text : String
  hasBegin : Bool
  hasEnd : Bool
deriving DecidableEq, Repr

instance : Inhabited RawLine := ⟨⟨"", false, false⟩⟩

/-- The matched text of a token as a string. -/
def tokText (t : Token) : String := String.mk t.value

/-- Modelled from the spec: the table-driven grammar engine itself
(`ply.yacc`, external to src) is not in the repository sources; per the spec
any technique recognizing the fixed grammar is equivalent.  `mkRawLine` builds
one grammar line from the content tokens preceding a LINENO stamp:
`line : linedata LINENO` gives `linedata ++ "\n"`, and the `beginaddress` /
`stopaddress` variants keep the marker text in place.  A line holding a
STARTPAGE or both markers fits no production. -/
def mkRawLine (content : List Token) : Option RawLine :=
  let hasB := content.countP (fun t => t.kind = TokKind.STARTADDRESS)
  let hasE := content.countP (fun t => t.kind = TokKind.ENDADDRESS)
  if content.any (fun t => t.kind = TokKind.STARTPAGE) || 1 < hasB || 1 < hasE
      || (hasB = 1 && hasE = 1) then
    none
  else
    some ⟨String.join (content.map tokText) ++ "\n", hasB = 1, hasE = 1⟩

/-- Modelled from the spec: split a page's token list into grammar lines,
each terminated by a LINENO token; trailing content without a LINENO fits no
production. -/
def buildLinesGo (acc : List Token) : List Token → Option (List RawLine)
  | [] => if acc.isEmpty then some [] else none
  | t :: ts =>
    if t.kind = TokKind.LINENO then
      match mkRawLine acc.reverse with
      | none => none
      | some l =>
        match buildLinesGo [] ts with
        | none => none
        | some ls => some (l :: ls)
    else buildLinesGo (t :: acc) ts

/-- Modelled from the spec: group the token stream into pages, one per
STARTPAGE token; the stream must open with a STARTPAGE. -/
def splitPagesGo (acc : List Token) (pages : List (List Token)) :
    List Token → List (List Token)
  | [] => pages ++ [acc.reverse]
  | t :: ts =>
    if t.kind = TokKind.STARTPAGE then splitPagesGo [] (pages ++ [acc.reverse]) ts
    else splitPagesGo (t :: acc) pages ts

/-- Modelled from the spec: the token lists of the individual pages. -/
def splitPages : List Token → Option (List (List Token))
  | [] => none
  | t :: ts =>
    if t.kind = TokKind.STARTPAGE then some (splitPagesGo [] [] ts) else none

/-- Concatenated text of a run of grammar lines (the value of a `lines`
nonterminal). -/
def linesText (ls : List RawLine) : String :=
  String.join (ls.map (fun l => l.text))

/-- Modelled from the spec: recognize one page's lines as a pagelist
production.  No markers and at least one line is `page : STARTPAGE lines`;
one `beginaddress` line at index `i` and one `stopaddress` line at index `j`
with at least one line before `i`, strictly between `i` and `j`, and after
`j` is `addrpage : STARTPAGE lines address lines`; anything else (e.g. an
unterminated address block) fits no production. -/
def pageToRed (ts : List Token) : Option PageRed :=
  match buildLinesGo [] ts with
  | none => none
  | some ls =>
    match ls.findIdx? (fun l => l.hasBegin), ls.findIdx? (fun l => l.hasEnd) with
    | none, none =>
      if ls.isEmpty then none else some (PageRed.page (linesText ls))
    | some i, some j =>
      if 1 ≤ i && i + 1 < j && j + 1 < ls.length then
        some (PageRed.addrpage (linesText (ls.take i))
          (ls.getD i default).text
          (linesText ((ls.drop (i + 1)).take (j - (i + 1))))
          (ls.getD j default).text
          (linesText (ls.drop (j + 1))))
      else none
    | _, _ => none

/-- Modelled from the spec: the pagelist reductions a completed engine run
fires on a token stream, or `none` for a ParseError. -/
def engineReds (ts : List Token) : Option (List PageRed) :=
  match splitPages ts with
  | none => none
  | some pages => pages.mapM pageToRed

/-- `Parser.parse` (src/parser.py lines 93–116): `if not text or
text.isspace(): return []` — empty or all-whitespace input short-circuits
before the lexer or the grammar engine ever runs, leaving the document state
at its `__init__` zeros and reporting nothing; otherwise the input is lexed
and the grammar engine drives the reductions.  The result pairs the final
document state (or the escaping error) with the lexical error reports. -/
def parse (text : String) : Except PyErr ParserState × List LexErr :=
  if text.data.isEmpty || pyStrIsSpace text then (Except.ok initState, [])
  else
    let lexed := lexTokens text
    match engineReds lexed.1 with
    | some rs => (runReds initState rs, lexed.2)
    | none => (Except.error PyErr.parseError, lexed.2)

/-- A concrete `addrpage` reduction with a genuine mailing address (Scenario
B: one leading line, an address block, one trailing line). -/
def addrRealRed : PageRed :=
  PageRed.addrpage "Statement\n" "Page 1, 1 to Page 1, 1\n"
    " John Doe\n 123 Main St\n" "** Summary of Account Activity **\n"
    "balance\n"

/-- A concrete `addrpage` reduction whose address block holds the code's
sentinel: a run of eighteen asterisks. -/
def addrSentinelRed : PageRed :=
  PageRed.addrpage "Statement\n" "Page 1, 1 to Page 1, 1\n"
    " ******************\n" "** Summary of Account Activity **\n"
    "balance\n"

/-- A concrete `addrpage` reduction whose address block holds a six-asterisk
run (the sentinel of the spec's Scenario D) but no eighteen-asterisk run. -/
def addrSixStarRed : PageRed :=
  PageRed.addrpage "Statement\n" "Page 1, 1 to Page 1, 1\n"
    " ******\n" "** Summary of Account Activity **\n"
    "balance\n"

/-- The document state after Scenario B (one addressed page with a real
address). -/
def stScenarioB : ParserState :=
  ((runReds initState [addrRealRed]).toOption).getD initState

/-- The document state after Scenario C (Scenario B followed by a plain
page). -/
def stScenarioC : ParserState :=
  ((runReds initState [addrRealRed, PageRed.page "more\n"]).toOption).getD initState

/-- The document state after Scenario C followed by a sentinel-addressed
page. -/
def stScenarioD : ParserState :=
  ((runReds initState
    [addrRealRed, PageRed.page "more\n", addrSentinelRed]).toOption).getD initState

theorem dictGet_mem (l : List (Nat × AccountEntry)) (k : Nat) (a : AccountEntry)
    (h : dictGet l k = some a) : (k, a) ∈ l := by
  induction l with
  | nil => simp [dictGet] at h
  | cons q rest ih =>
    obtain ⟨k', v⟩ := q
    by_cases hk : k' = k
    · subst hk
      simp [dictGet] at h
      subst h
      exact List.mem_cons_self _ _
    · simp [dictGet, hk] at h
      exact List.mem_cons_of_mem _ (ih h)

theorem mem_dictSet (l : List (Nat × AccountEntry)) (k : Nat) (v : AccountEntry)
    (p : Nat × AccountEntry) (h : p ∈ dictSet l k v) : p ∈ l ∨ p = (k, v) := by
  induction l with
  | nil =>
    simp [dictSet] at h
    simp [h]
  | cons q rest ih =>
    obtain ⟨k', v'⟩ := q
    by_cases hk : k' = k
    · subst hk
      simp [dictSet] at h
      rcases h with h | h
      · right; simp [h]
      · left; exact List.mem_cons_of_mem _ h
    · simp [dictSet, hk] at h
      rcases h with h | h
      · left; simp [h]
      · rcases ih h with h' | h'
        · left; exact List.mem_cons_of_mem _ h'
        · right; exact h'

theorem dictGet_eq_none (l : List (Nat × AccountEntry)) (k : Nat)
    (h : ∀ p ∈ l, p.1 ≠ k) : dictGet l k = none := by
  induction l with
  | nil => rfl
  | cons q rest ih =>
    obtain ⟨k', v'⟩ := q
    have hk : k' ≠ k := h (k', v') (List.mem_cons_self _ _)
    simp [dictGet, hk]
    exact ih fun p hp => h p (List.mem_cons_of_mem _ hp)

theorem dictSet_fresh (l : List (Nat × AccountEntry)) (k : Nat) (v : AccountEntry)
    (h : dictGet l k = none) : dictSet l k v = l ++ [(k, v)] := by
  induction l with
  | nil => rfl
  | cons q rest ih =>
    obtain ⟨k', v'⟩ := q
    by_cases hk : k' = k
    · subst hk
      simp [dictGet] at h
    · simp [dictGet, hk] at h
      simp [dictSet, hk, ih h]

theorem sumPC_dictSet (l : List (Nat × AccountEntry)) (k : Nat)
    (a v : AccountEntry) (h : dictGet l k = some a) :
    sumPC (dictSet l k v) + a.pageCount = sumPC l + v.pageCount := by
  induction l with
  | nil => simp [dictGet] at h
  | cons q rest ih =>
    obtain ⟨k', v'⟩ := q
    by_cases hk : k' = k
    · subst hk
      simp [dictGet] at h
      subst h
      simp [dictSet, sumPC]
      omega
    · simp [dictGet, hk] at h
      have := ih h
      simp [dictSet, sumPC, hk] at this ⊢
      omega

theorem sumPC_append_single (l : List (Nat × AccountEntry)) (k : Nat)
    (v : AccountEntry) : sumPC (l ++ [(k, v)]) = sumPC l + v.pageCount := by
  simp [sumPC]

/-- Any property of the document state preserved by every pagelist reduction
holds in every state a completed run reaches. -/
theorem runReds_inv (Inv : ParserState → Prop)
    (hstep : ∀ st r st', Inv st → applyRed st r = Except.ok st' → Inv st') :
    ∀ rs st0 st, Inv st0 → runReds st0 rs = Except.ok st → Inv st := by
  intro rs
  induction rs with
  | nil =>
    intro st0 st h0 hrun
    simp [runReds] at hrun
    exact hrun ▸ h0
  | cons r rs ih =>
    intro st0 st h0 hrun
    simp only [runReds] at hrun
    cases happ : applyRed st0 r with
    | error e =>
      rw [happ] at hrun
      exact Except.noConfusion hrun
    | ok st1 =>
      rw [happ] at hrun
      exact ih st1 st (hstep st0 r st1 h0 happ) hrun

/-- C10: a run whose first pagelist reduction is a plain page — no address
block was recognized before it, so the address history is still empty —
aborts with the uncaught IndexError from `self.addresses[-1]` in `p_page`
(src/parser.py line 176), not with a ParseError report through the error
callback, and produces no document. -/
theorem C10_theorem (content : String) (rest : List PageRed) :
    runReds initState (PageRed.page content :: rest) =
      Except.error PyErr.indexError := by
  rfl

/-- C9 counterexample: in the input "a\nb" the token starting at offset 2,
immediately after the newline at offset 1, is reported at column 2 by
`_find_tok_column`, not at column 1 as the claim states (the claim's
"distance from the preceding newline" of this token is 1). -/
theorem C9_counterexample :
    findTokColumn ['a', '\n', 'b'] 2 = 2 ∧ findTokColumn ['a', '\n', 'b'] 2 ≠ 1 := by
  decide

theorem colScan_succ (d : List Char) (i : Nat) :
    colScan d (i + 1) = if d.getD (i + 1) ' ' = '\n' then i + 1 else colScan d i :=
  rfl

theorem colScan_eq_zero (d : List Char) (n : Nat)
    (h : ∀ i, i ≤ n → d.getD i ' ' ≠ '\n') : colScan d n = 0 := by
  induction n with
  | zero => rfl
  | succ m ih =>
    rw [colScan_succ, if_neg (h (m + 1) le_rfl)]
    exact ih fun i hi => h i (Nat.le_succ_of_le hi)

/-- C9 (amended): the reported column is 1-based from the start of input when
no newline lies at any inspected offset (`column = lexpos + 1`), but for a
token starting immediately after a newline the backward scan stops ON the
newline and the reported column is `(lexpos - i) + 1 = 2`, one more than the
claimed distance-from-the-newline of 1. -/
theorem C9_theorem (d : List Char) (p q : Nat) :
    ((∀ i, i ≤ p → d.getD i ' ' ≠ '\n') → findTokColumn d p = p + 1) ∧
    (d.getD (q + 1) ' ' ≠ '\n' → d.getD q ' ' = '\n' → findTokColumn d (q + 1) = 2) := by
  constructor
  · intro h
    simp [findTokColumn, colScan_eq_zero d p h]
  · intro h1 h2
    cases q with
    | zero =>
      rw [findTokColumn, colScan_succ, if_neg h1]
      rfl
    | succ r =>
      rw [findTokColumn, colScan_succ, if_neg h1, colScan_succ, if_pos h2]
      omega

/-- C9 witness: in "a\nb", the token at offset 0 (no preceding newline) gets
column 1, and the token at offset 2 (right after the newline) gets column 2. -/
theorem C9_witness :
    (∀ i, i ≤ 0 → (['a', '\n', 'b'] : List Char).getD i ' ' ≠ '\n') ∧
    (['a', '\n', 'b'] : List Char).getD 2 ' ' ≠ '\n' ∧
    (['a', '\n', 'b'] : List Char).getD 1 ' ' = '\n' ∧
    findTokColumn ['a', '\n', 'b'] 0 = 0 + 1 ∧
    findTokColumn ['a', '\n', 'b'] (1 + 1) = 2 :=
  have hth := C9_theorem ['a', '\n', 'b'] 0 1
  ⟨fun i hi => by
     have : i = 0 := Nat.le_zero.mp hi
     subst this
     decide,
   by decide, by decide,
   hth.1 (fun i hi => by
     have : i = 0 := Nat.le_zero.mp hi
     subst this
     decide),
   hth.2 (by decide) (by decide)⟩

/-- C8: empty or all-whitespace input short-circuits in `Parser.parse`
(src/parser.py line 111) before the lexer or grammar ever runs: no error is
reported and the document state stays at its initialized zeros. -/
theorem C8_theorem (text : String)
    (h : text.data = [] ∨ (text.data ≠ [] ∧ ∀ ch ∈ text.data, isSpaceChar ch = true)) :
    parse text = (Except.ok initState, []) ∧
    initState.statements = 0 ∧ initState.totalPages = 0 := by
  refine ⟨?_, rfl, rfl⟩
  rcases h with h | ⟨h1, h2⟩
  · simp [parse, h]
  · have hne : text.data.isEmpty = false := by
      cases hd : text.data with
      | nil => exact absurd hd h1
      | cons a l => rfl
    have hall : text.data.all isSpaceChar = true := List.all_eq_true.mpr h2
    simp [parse, pyStrIsSpace, hne, hall]

/-- C8 witness: the whitespace-only input " \t\n". -/
theorem C8_witness :
    ((" \t\n" : String).data = [] ∨
      ((" \t\n" : String).data ≠ [] ∧
       ∀ ch ∈ (" \t\n" : String).data, isSpaceChar ch = true)) ∧
    (parse " \t\n" = (Except.ok initState, []) ∧
     initState.statements = 0 ∧ initState.totalPages = 0) :=
  ⟨Or.inr ⟨by decide, by decide⟩, C8_theorem " \t\n" (Or.inr ⟨by decide, by decide⟩)⟩

/-- C4 counterexample: `p_address` with `p[1] = "begin "`, `p[2] = "inner "`,
`p[3] = "end"` appends only `p[2]` to the address history (src/parser.py line
187), not the full reconstruction `p[1] + p[2] + p[3]` the claim states; the
full reconstruction only becomes the nonterminal's value `p[0]`. -/
theorem C4_counterexample :
    (p_address initState "begin " "inner " "end").1.addresses = ["inner "] ∧
    (p_address initState "begin " "inner " "end").2 = "begin " ++ "inner " ++ "end" ∧
    ("inner " : String) ≠ "begin " ++ "inner " ++ "end" := by
  decide

/-- C4 (amended): every `address` reduction appends, always and
unconditionally, exactly the inner-lines text `p[2]` of the block to the
address history — NOT the `begin_marker ++ lines ++ end_marker`
reconstruction, which becomes the value of the `address` nonterminal and
flows into the page text; and the Statement opened by a non-sentinel
addressed page carries that same appended entry (the inner lines) as its
address. -/
theorem C4_theorem (st : ParserState) (b i e l1 l2 : String) :
    p_address st b i e =
      ({ st with addresses := st.addresses ++ [i] }, b ++ i ++ e) ∧
    (containsSentinel i = false →
      applyRed st (PageRed.addrpage l1 b i e l2) = Except.ok { st with
        addresses := st.addresses ++ [i],
        totalPages := st.totalPages + 1,
        statements := st.statements + 1,
        builtPages := st.builtPages ++ [l1 ++ (b ++ i ++ e) ++ l2],
        accounts := dictSet st.accounts (st.statements + 1)
          ⟨1, [Nat.repr (st.totalPages + 1)], i, [], none⟩ }) := by
  constructor
  · rfl
  · intro hs
    simp [applyRed, p_address, p_addrpage, List.getLast?_concat, hs]

/-- C4 witness: concrete instantiation at the initial state. -/
theorem C4_witness :
    containsSentinel "inner " = false ∧
    p_address initState "begin " "inner " "end" =
      ({ initState with addresses := initState.addresses ++ ["inner "] },
       "begin " ++ "inner " ++ "end") ∧
    applyRed initState (PageRed.addrpage "l\n" "begin " "inner " "end" "m\n") =
      Except.ok { initState with
        addresses := initState.addresses ++ ["inner "],
        totalPages := initState.totalPages + 1,
        statements := initState.statements + 1,
        builtPages := initState.builtPages ++
          ["l\n" ++ ("begin " ++ "inner " ++ "end") ++ "m\n"],
        accounts := dictSet initState.accounts (initState.statements + 1)
          ⟨1, [Nat.repr (initState.totalPages + 1)], "inner ", [], none⟩ } :=
  ⟨by decide,
   (C4_theorem initState "begin " "inner " "end" "l\n" "m\n").1,
   (C4_theorem initState "begin " "inner " "end" "l\n" "m\n").2 (by decide)⟩

/-- C2 counterexample: after a genuine addressed page, (1) an addressed page
whose address is the six-asterisk text of Scenario D DOES allocate a new
Statement id (total_statements becomes 2): only an eighteen-asterisk run is
the code's sentinel; and (2) an addressed page carrying the real sentinel
leaves `totalPages` at 1 — it is NOT incremented — and statement 1's
page_numbers stay ["1"]: the page is not folded into the open Statement but
dropped from all counters. -/
theorem C2_counterexample :
    (runReds initState [addrRealRed, addrSixStarRed]).map ParserState.statements =
      Except.ok 2 ∧
    (runReds initState [addrRealRed, addrSentinelRed]).map ParserState.totalPages =
      Except.ok 1 ∧
    (runReds initState [addrRealRed, addrSentinelRed]).map
        (fun st => dictGet st.accounts 1) =
      Except.ok (some ⟨1, ["1"], " John Doe\n 123 Main St\n", [], none⟩) :=
  ⟨rfl, rfl, rfl⟩

/-- C2 (amended): an `addressed_page` reduction whose just-appended address
entry contains a run of EIGHTEEN asterisks (shorter runs such as "******" are
not sentinels) allocates no new Statement id — and beyond that leaves the
entire document state except the address history untouched: `total_pages` is
not incremented and no page number is appended to any Statement; the page is
dropped from all counters. -/
theorem C2_theorem (st : ParserState) (l1 b i e l2 : String)
    (hs : containsSentinel i = true) :
    applyRed st (PageRed.addrpage l1 b i e l2) =
      Except.ok { st with addresses := st.addresses ++ [i] } := by
  simp [applyRed, p_address, p_addrpage, List.getLast?_concat, hs]

/-- C2 witness: the sentinel-addressed page of `addrSentinelRed` applied to
the initial state. -/
theorem C2_witness :
    containsSentinel " ******************\n" = true ∧
    applyRed initState (PageRed.addrpage "Statement\n" "Page 1, 1 to Page 1, 1\n"
        " ******************\n" "** Summary of Account Activity **\n" "balance\n") =
      Except.ok { initState with
        addresses := initState.addresses ++ [" ******************\n"] } :=
  ⟨by decide,
   C2_theorem initState "Statement\n" "Page 1, 1 to Page 1, 1\n"
     " ******************\n" "** Summary of Account Activity **\n" "balance\n"
     (by decide)⟩

/-- C3: a `plain_page` reduction while a Statement is open (the accounts map
holds key `statements`) and the last address entry is not the sentinel bumps
`totalPages` by one and appends the new page ordinal to that open Statement,
incrementing its page count (src/parser.py lines 174–183); consequently
Scenario B followed by a plain page gives page_count 2, page_numbers
["1", "2"], one statement, two pages. -/
theorem C3_theorem :
    (∀ (st : ParserState) (l1 a : String) (acct : AccountEntry),
      st.addresses.getLast? = some a → containsSentinel a = false →
      dictGet st.accounts st.statements = some acct →
      p_page st l1 = Except.ok { st with
        totalPages := st.totalPages + 1,
        builtPages := st.builtPages ++ [l1],
        accounts := dictSet st.accounts st.statements
          ⟨acct.pageCount + 1,
           acct.pageNumbers ++ [Nat.repr (st.totalPages + 1)],
           acct.address, acct.reserved, acct.reservedSlot⟩ }) ∧
    (runReds initState [addrRealRed, PageRed.page "more\n"]).map
        (fun st => (st.statements, st.totalPages, dictGet st.accounts 1)) =
      Except.ok (1, 2, some ⟨2, ["1", "2"], " John Doe\n 123 Main St\n", [], none⟩) := by
  constructor
  · intro st l1 a acct h1 h2 h3
    simp [p_page, h1, h2, h3]
  · rfl

/-- C3 witness: the plain page of Scenario C applied to the Scenario B
state. -/
theorem C3_witness :
    stScenarioB.addresses.getLast? = some " John Doe\n 123 Main St\n" ∧
    containsSentinel " John Doe\n 123 Main St\n" = false ∧
    dictGet stScenarioB.accounts stScenarioB.statements =
      some ⟨1, ["1"], " John Doe\n 123 Main St\n", [], none⟩ ∧
    p_page stScenarioB "more\n" = Except.ok { stScenarioB with
      totalPages := stScenarioB.totalPages + 1,
      builtPages := stScenarioB.builtPages ++ ["more\n"],
      accounts := dictSet stScenarioB.accounts stScenarioB.statements
        ⟨1 + 1, ["1"] ++ [Nat.repr (stScenarioB.totalPages + 1)],
         " John Doe\n 123 Main St\n", [], none⟩ } :=
  ⟨by decide, by decide, by decide,
   C3_theorem.1 stScenarioB "more\n" " John Doe\n 123 Main St\n"
     ⟨1, ["1"], " John Doe\n 123 Main St\n", [], none⟩
     (by decide) (by decide) (by decide)⟩

/-- Forward characterization of an `addrpage` reduction: the inner `address`
reduction always appends the inner text to the history; then `p_addrpage`
either drops the page (sentinel) or opens statement `statements + 1` on page
`totalPages + 1`. -/
theorem applyRed_addrpage (st : ParserState) (l1 b i e l2 : String) :
    applyRed st (PageRed.addrpage l1 b i e l2) =
      if containsSentinel i then
        Except.ok { st with addresses := st.addresses ++ [i] }
      else
        Except.ok { st with
          addresses := st.addresses ++ [i],
          totalPages := st.totalPages + 1,
          statements := st.statements + 1,
          builtPages := st.builtPages ++ [l1 ++ (b ++ i ++ e) ++ l2],
          accounts := dictSet st.accounts (st.statements + 1)
            ⟨1, [Nat.repr (st.totalPages + 1)], i, [], none⟩ } := by
  by_cases hs : containsSentinel i = true
  · simp [applyRed, p_address, p_addrpage, List.getLast?_concat, hs]
  · simp [applyRed, p_address, p_addrpage, List.getLast?_concat, hs]

/-- Inversion of a successful `p_page`: either the last address entry is the
sentinel and the state is untouched, or the open statement is extended. -/
theorem p_page_ok_cases (st st' : ParserState) (l1 : String)
    (h : p_page st l1 = Except.ok st') :
    ∃ a, st.addresses.getLast? = some a ∧
      ((containsSentinel a = true ∧ st' = st) ∨
       (containsSentinel a = false ∧ ∃ acct,
         dictGet st.accounts st.statements = some acct ∧
         st' = { st with
           totalPages := st.totalPages + 1,
           builtPages := st.builtPages ++ [l1],
           accounts := dictSet st.accounts st.statements
             ⟨acct.pageCount + 1,
              acct.pageNumbers ++ [Nat.repr (st.totalPages + 1)],
              acct.address, acct.reserved, acct.reservedSlot⟩ })) := by
  unfold p_page at h
  cases hlast : st.addresses.getLast? with
  | none =>
    rw [hlast] at h
    exact Except.noConfusion h
  | some a =>
    rw [hlast] at h
    simp only [] at h
    refine ⟨a, rfl, ?_⟩
    cases hs : containsSentinel a with
    | true =>
      rw [hs] at h
      simp at h
      exact Or.inl ⟨rfl, h.symm⟩
    | false =>
      rw [hs] at h
      simp at h
      cases hget : dictGet st.accounts st.statements with
      | none =>
        rw [hget] at h
        simp at h
      | some acct =>
        rw [hget] at h
        simp at h
        exact Or.inr ⟨rfl, acct, rfl, h.symm⟩

theorem applyRed_good (st : ParserState) (r : PageRed) (st' : ParserState)
    (h0 : GoodState st) (h : applyRed st r = Except.ok st') : GoodState st' := by
  obtain ⟨hkeys, hsum⟩ := h0
  cases r with
  | addrpage l1 b i e l2 =>
    rw [applyRed_addrpage] at h
    by_cases hs : containsSentinel i = true
    · rw [if_pos hs] at h
      injection h with h
      subst h
      exact ⟨hkeys, hsum⟩
    · rw [if_neg hs] at h
      injection h with h
      subst h
      have hfresh : dictGet st.accounts (st.statements + 1) = none :=
        dictGet_eq_none _ _ (fun p hp => by
          have := (hkeys p hp).2
          omega)
      constructor
      · intro p hp
        simp only [dictSet_fresh _ _ _ hfresh] at hp
        rcases List.mem_append.mp hp with hp | hp
        · have := hkeys p hp
          simp only []
          omega
        · simp at hp
          simp [hp]
      · simp only [dictSet_fresh _ _ _ hfresh, sumPC_append_single]
        simp [hsum]
  | page l1 =>
    obtain ⟨a, hlast, hcase⟩ := p_page_ok_cases st st' l1 h
    rcases hcase with ⟨hs, hst⟩ | ⟨hs, acct, hget, hst⟩
    · subst hst
      exact ⟨hkeys, hsum⟩
    · subst hst
      constructor
      · intro p hp
        rcases mem_dictSet _ _ _ _ hp with hp | hp
        · exact hkeys p hp
        · subst hp
          have := hkeys _ (dictGet_mem _ _ _ hget)
          simpa using this
      · have := sumPC_dictSet st.accounts st.statements acct
          ⟨acct.pageCount + 1,
           acct.pageNumbers ++ [Nat.repr (st.totalPages + 1)],
           acct.address, acct.reserved, acct.reservedSlot⟩ hget
        simp only [] at this ⊢
        omega

/-- C5: in every state a completed run reaches — in particular in the final
document — the page counts of the statements sum to `totalPages`: both
counters are advanced in lockstep by the non-sentinel branches of
`p_addrpage` and `p_page`, and sentinel pages advance neither. -/
theorem C5_theorem (rs : List PageRed) (st : ParserState)
    (h : runReds initState rs = Except.ok st) :
    sumPC st.accounts = st.totalPages :=
  (runReds_inv GoodState applyRed_good rs initState st
    ⟨fun p hp => absurd hp (by simp [initState]), rfl⟩ h).2

/-- C5 witness: a real addressed page, a plain page, then a sentinel page. -/
theorem C5_witness :
    runReds initState [addrRealRed, PageRed.page "more\n", addrSentinelRed] =
      Except.ok stScenarioD ∧
    sumPC stScenarioD.accounts = stScenarioD.totalPages :=
  ⟨rfl, C5_theorem [addrRealRed, PageRed.page "more\n", addrSentinelRed] stScenarioD rfl⟩

/-- C6: every statement record's `page_count` equals the length of its
`page_numbers` list; the predicate is preserved by every pagelist reduction
(statement creation starts at 1 with a singleton list; every page append
bumps both together), hence holds in every reachable state and in the final
document. -/
theorem C6_theorem :
    (∀ (st : ParserState) (r : PageRed) (st' : ParserState),
      PCInv st → applyRed st r = Except.ok st' → PCInv st') ∧
    (∀ (rs : List PageRed) (st : ParserState),
      runReds initState rs = Except.ok st → PCInv st) := by
  have hstep : ∀ (st : ParserState) (r : PageRed) (st' : ParserState),
      PCInv st → applyRed st r = Except.ok st' → PCInv st' := by
    intro st r st' h0 h
    cases r with
    | addrpage l1 b i e l2 =>
      rw [applyRed_addrpage] at h
      by_cases hs : containsSentinel i = true
      · rw [if_pos hs] at h
        injection h with h
        subst h
        exact fun p hp => h0 p hp
      · rw [if_neg hs] at h
        injection h with h
        subst h
        intro p hp
        rcases mem_dictSet _ _ _ _ hp with hp | hp
        · exact h0 p hp
        · subst hp
          rfl
    | page l1 =>
      obtain ⟨a, hlast, hcase⟩ := p_page_ok_cases st st' l1 h
      rcases hcase with ⟨hs, hst⟩ | ⟨hs, acct, hget, hst⟩
      · subst hst
        exact h0
      · subst hst
        intro p hp
        rcases mem_dictSet _ _ _ _ hp with hp | hp
        · exact h0 p hp
        · subst hp
          have := h0 _ (dictGet_mem _ _ _ hget)
          simpa using this
  exact ⟨hstep, fun rs st h =>
    runReds_inv PCInv hstep rs initState st
      (fun p hp => absurd hp (by simp [initState])) h⟩

/-- C6 witness: the invariant in the Scenario C state. -/
theorem C6_witness :
    runReds initState [addrRealRed, PageRed.page "more\n"] = Except.ok stScenarioC ∧
    PCInv stScenarioC :=
  ⟨rfl, C6_theorem.2 [addrRealRed, PageRed.page "more\n"] stScenarioC rfl⟩

/-- C1 counterexample: a genuine addressed page followed by a
sentinel-addressed page consumes two STARTPAGE tokens, but the final
`totalPages` is 1: the sentinel branch of `p_addrpage` (src/parser.py lines
161–163) has no else-arm, so a sentinel page increments nothing. -/
theorem C1_counterexample :
    (runReds initState [addrRealRed, addrSentinelRed]).map ParserState.totalPages =
      Except.ok 1 ∧
    startpageCount [addrRealRed, addrSentinelRed] = 2 ∧ (1 : Nat) ≠ 2 :=
  ⟨rfl, rfl, by decide⟩

theorem runReds_totalPages (rs : List PageRed) :
    ∀ (st0 st : ParserState), runReds st0 rs = Except.ok st →
      st.totalPages = st0.totalPages + nonSentinelCount st0.addresses.getLast? rs := by
  induction rs with
  | nil =>
    intro st0 st h
    simp [runReds] at h
    subst h
    simp [nonSentinelCount]
  | cons r rs ih =>
    intro st0 st h
    simp only [runReds] at h
    cases happ : applyRed st0 r with
    | error e =>
      rw [happ] at h
      exact Except.noConfusion h
    | ok st1 =>
      rw [happ] at h
      have hrec := ih st1 st h
      cases r with
      | addrpage l1 b i e l2 =>
        rw [applyRed_addrpage] at happ
        by_cases hs : containsSentinel i = true
        · rw [if_pos hs] at happ
          injection happ with happ
          subst happ
          rw [hrec]
          simp [nonSentinelCount, hs, List.getLast?_concat]
        · rw [if_neg hs] at happ
          injection happ with happ
          subst happ
          rw [hrec]
          simp [nonSentinelCount, hs, List.getLast?_concat]
          omega
      | page l1 =>
        obtain ⟨a, hlast, hcase⟩ := p_page_ok_cases st0 st1 l1 happ
        rcases hcase with ⟨hs, hst⟩ | ⟨hs, acct, hget, hst⟩
        · subst hst
          rw [hrec, hlast]
          simp [nonSentinelCount, hs]
        · subst hst
          rw [hrec, hlast]
          simp [nonSentinelCount, hs]
          omega

/-- C1 (amended): the final `totalPages` of a completed run equals the number
of pages whose governing address entry (its own inner address text for an
addressed page, the most recent entry for a plain page) contains no
18-asterisk run — NOT the number of STARTPAGE tokens consumed:
sentinel-governed pages are skipped entirely and contribute zero. -/
theorem C1_theorem (rs : List PageRed) (st : ParserState)
    (h : runReds initState rs = Except.ok st) :
    st.totalPages = nonSentinelCount none rs := by
  have h2 := runReds_totalPages rs initState st h
  simpa [initState] using h2

/-- C1 witness: two counted pages and one sentinel page give totalPages 2. -/
theorem C1_witness :
    runReds initState [addrRealRed, PageRed.page "more\n", addrSentinelRed] =
      Except.ok stScenarioD ∧
    stScenarioD.totalPages =
      nonSentinelCount none [addrRealRed, PageRed.page "more\n", addrSentinelRed] :=
  ⟨rfl, C1_theorem [addrRealRed, PageRed.page "more\n", addrSentinelRed] stScenarioD rfl⟩

/-- C7: at a position where no lexical rule matches, the scan loop emits
exactly one error report — built from the current character, the running
line counter and the backward column scan, as `_error` passes them to the
injected callback — then skips exactly one character (`self.lexer.skip(1)`)
and resumes scanning from the next position with the same line counter; the
loop continues over the rest of the input, so a lexical error never aborts
the run. -/
theorem C7_theorem (d : List Char) (c : Char) (cs : List Char) (pos line : Nat)
    (h : masterMatch (c :: cs) = none) :
    lexLoop d (c :: cs) pos line =
      ((lexLoop d cs (pos + 1) line).1,
       ⟨illegalMsg c, line, findTokColumn d pos⟩ :: (lexLoop d cs (pos + 1) line).2) := by
  rw [lexLoop]
  rw [h]

/-- C7 witness: a NUL byte matches no rule; the error is reported at line 1
column 1 and scanning resumes on the following character. -/
theorem C7_witness :
    masterMatch ['\x00', 'a'] = none ∧
    lexLoop ['\x00', 'a'] ['\x00', 'a'] 0 1 =
      ((lexLoop ['\x00', 'a'] ['a'] (0 + 1) 1).1,
       ⟨illegalMsg '\x00', 1, findTokColumn ['\x00', 'a'] 0⟩ ::
         (lexLoop ['\x00', 'a'] ['a'] (0 + 1) 1).2) :=
  ⟨by decide, C7_theorem ['\x00', 'a'] '\x00' ['a'] 0 1 (by decide)⟩
